import Mathlib

/-! UART asynchronous RX/TX tasks (`main/uart_async_rxtxtasks_main.c`)

A shallow embedding of the ESP32 example program: the serial port initializer
`uart_init`, the transmit helper `sendData`, the two perpetual task loops
`tx_task` and `rx_task`, and the entry point `app_main`.

Calls into the SDK (UART driver, FreeRTOS, logging) are recorded as events of a
trace; the values the SDK hands back (error codes, byte counts, received bytes)
are inputs of the embedded functions.  Bytes are natural numbers, C `int`s are
integers, and the scratch buffer is a list of bytes with bounds-checked stores.
-/

namespace UartAsync

/-! ## Constants of the source file -/

/-- Source constant `#define UART_PORT_NUM UART_NUM_2`. -/
def UART_PORT_NUM : Nat := 2

/-- Source constant `#define TXD_PIN 25`. -/
def TXD_PIN : Int := 25

/-- Source constant `#define RXD_PIN 26`. -/
def RXD_PIN : Int := 26

/-- Source constant `#define UART_BAUD_RATE 115200`. -/
def UART_BAUD_RATE : Int := 115200

/-- Source constant `#define RX_BUF_SIZE 1024`. -/
def RX_BUF_SIZE : Nat := 1024

/-- Source constant `#define TASK_STACK_SIZE 2048`. -/
def TASK_STACK_SIZE : Nat := 2048

/-- Source constant `static const char *TAG = "UART_MAIN";`. -/
def TAG : String := "UART_MAIN"

/-- Source constant `static const char *TX_TASK_TAG = "TX_TASK";`. -/
def TX_TASK_TAG : String := "TX_TASK"

/-- Source constant `static const char *RX_TASK_TAG = "RX_TASK";`. -/
def RX_TASK_TAG : String := "RX_TASK"

/-! ## SDK constants and types used by the source -/

/-- SDK error code `ESP_OK`. -/
def ESP_OK : Int := 0

/-- SDK pin marker `UART_PIN_NO_CHANGE`. -/
def UART_PIN_NO_CHANGE : Int := -1

/-- SDK enumeration of word lengths. -/
inductive uart_word_length_t
  | UART_DATA_5_BITS | UART_DATA_6_BITS | UART_DATA_7_BITS | UART_DATA_8_BITS
  deriving DecidableEq, Repr

/-- SDK enumeration of parity modes. -/
inductive uart_parity_t
  | UART_PARITY_DISABLE | UART_PARITY_EVEN | UART_PARITY_ODD
  deriving DecidableEq, Repr

/-- SDK enumeration of stop bit counts. -/
inductive uart_stop_bits_t
  | UART_STOP_BITS_1 | UART_STOP_BITS_1_5 | UART_STOP_BITS_2
  deriving DecidableEq, Repr

/-- SDK enumeration of hardware flow control modes. -/
inductive uart_hw_flowcontrol_t
  | UART_HW_FLOWCTRL_DISABLE | UART_HW_FLOWCTRL_RTS | UART_HW_FLOWCTRL_CTS
  | UART_HW_FLOWCTRL_CTS_RTS
  deriving DecidableEq, Repr

/-- SDK enumeration of clock sources (only the one the source names). -/
inductive uart_sclk_t
  | UART_SCLK_DEFAULT
  deriving DecidableEq, Repr

/-- SDK log levels (only the one the source names is used). -/
inductive esp_log_level_t
  | ESP_LOG_NONE | ESP_LOG_ERROR | ESP_LOG_WARN | ESP_LOG_INFO | ESP_LOG_DEBUG
  | ESP_LOG_VERBOSE
  deriving DecidableEq, Repr

/-- The configuration record `uart_config_t`, with the fields the source sets. -/
structure uart_config_t where
  baud_rate : Int
  data_bits : uart_word_length_t
  parity : uart_parity_t
  stop_bits : uart_stop_bits_t
  flow_ctrl : uart_hw_flowcontrol_t
  source_clk : uart_sclk_t
  deriving DecidableEq, Repr

/-- Modelled from the spec: the build-time constants of the RTOS configuration,
absent from the source tree, which the source uses
through `pdMS_TO_TICKS`, `portTICK_PERIOD_MS` and `configMAX_PRIORITIES`.  The
tick rate is between 1 and 1000 Hz, as the SDK configuration requires, so that
`portTICK_PERIOD_MS` is not zero. -/
structure Platform where
  configTICK_RATE_HZ : Nat
  configMAX_PRIORITIES : Nat
  tick_pos : 0 < configTICK_RATE_HZ
  tick_le : configTICK_RATE_HZ ≤ 1000
  prio_ge : 2 ≤ configMAX_PRIORITIES

/-- Modelled from the spec: the RTOS conversion of milliseconds to ticks, absent
from the source tree, `pdMS_TO_TICKS(ms) = ms * configTICK_RATE_HZ / 1000`. -/
def pdMS_TO_TICKS (pf : Platform) (ms : Nat) : Nat :=
  ms * pf.configTICK_RATE_HZ / 1000

/-- Modelled from the spec: the RTOS tick period in milliseconds, absent from the
source tree, `portTICK_PERIOD_MS = 1000 / configTICK_RATE_HZ`. -/
def portTICK_PERIOD_MS (pf : Platform) : Nat :=
  1000 / pf.configTICK_RATE_HZ

/-! ## Events -/

/-- The task functions of the source that `xTaskCreate` can be given. -/
inductive TaskFn
  | rx_task | tx_task
  deriving DecidableEq, Repr

/-- An argument of a formatted log line. -/
inductive Arg
  | int (n : Int)
  | str (bytes : List Nat)
  deriving DecidableEq, Repr

/-- Calls into the SDK, in the order the program makes them. -/
inductive Event
  /-- Call `uart_driver_install(port, rx_buffer_size, tx_buffer_size, queue_size, NULL, intr_alloc_flags)` -/
  | driverInstall (port : Nat) (rxBufferSize txBufferSize queueSize intrAllocFlags : Int)
  /-- Call `uart_param_config(port, &cfg)` -/
  | paramConfig (port : Nat) (cfg : uart_config_t)
  /-- Call `uart_set_pin(port, tx, rx, rts, cts)` -/
  | setPin (port : Nat) (tx rx rts cts : Int)
  /-- Call `ESP_LOGI(tag, fmt, args...)` -/
  | logInfo (tag : String) (fmt : String) (args : List Arg)
  /-- Call `ESP_LOG_BUFFER_HEXDUMP(tag, buffer, len, ESP_LOG_INFO)`, with the `len` bytes dumped -/
  | hexdump (tag : String) (bytes : List Nat)
  /-- Call `esp_log_level_set(tag, level)` -/
  | logLevelSet (tag : String) (level : esp_log_level_t)
  /-- Call `uart_write_bytes(port, src, size)`, with the memory at `src` -/
  | write (port : Nat) (src : List Nat) (size : Int)
  /-- Call `uart_read_bytes(port, buf, length, ticks_to_wait)` -/
  | read (port : Nat) (length : Nat) (ticksToWait : Nat)
  /-- Call `vTaskDelay(ticks)` -/
  | delay (ticks : Nat)
  /-- Call `xTaskCreate(fn, name, stack, NULL, priority, NULL)` -/
  | taskCreate (fn : TaskFn) (name : String) (stackDepth : Nat) (priority : Nat)
  /-- Call `abort()`, reached from a failed `ESP_ERROR_CHECK` -/
  | abort
  deriving DecidableEq, Repr

/-! ## C strings and the scratch buffer -/

/-- The bytes of a C string stored at the start of `mem`: everything before the
first zero byte (`%s` prints these bytes). -/
def cstr (mem : List Nat) : List Nat :=
  mem.takeWhile (fun b => b != 0)

/-- C library `strlen`: the number of bytes before the first zero byte. -/
def strlen (mem : List Nat) : Nat :=
  (cstr mem).length

/-- The memory of a string literal of ASCII characters: its bytes and the
terminating zero byte. -/
def literal (s : String) : List Nat :=
  s.toList.map Char.toNat ++ [0]

/-- Conversion of an unsigned 32-bit `size_t` value to a 32-bit `int`. -/
def toInt32 (n : Nat) : Int :=
  if n % 2 ^ 32 < 2 ^ 31 then ((n % 2 ^ 32 : Nat) : Int) else ((n % 2 ^ 32 : Nat) : Int) - 2 ^ 32

/-- A bounds-checked store `mem[i] = v`; `none` is a store outside the
allocation. -/
def storeByte (mem : List Nat) (i : Nat) (v : Nat) : Option (List Nat) :=
  if i < mem.length then some (mem.set i v) else none

/-- What one call of the driver's `uart_read_bytes` hands back: the returned
count (zero on timeout, negative on error) and the bytes received. -/
structure ReadResult where
  count : Int
  payload : List Nat
  deriving DecidableEq, Repr

/-- The driver's effect on the caller's buffer for a read of at most `length`
bytes: it copies the `count` received bytes (never more than `length`) to the
start of the buffer and touches nothing else (nothing at all for a count that
is zero or negative). -/
def uart_read_bytes_fill (data : List Nat) (length : Nat) (res : ReadResult) : List Nat :=
  let got := res.payload.take (min res.count.toNat length)
  got ++ data.drop got.length

/-! ## The receive loop -/

/-- One iteration of the `while (1)` body of `rx_task`, on the scratch buffer
`data` and the driver's answer `res`.  Returns the events of the iteration and
the buffer afterwards; `none` is a store outside the buffer. -/
def rx_task_iteration (pf : Platform) (data : List Nat) (res : ReadResult) :
    Option (List Event × List Nat) :=
  let waiting := Event.logInfo RX_TASK_TAG "Waiting for data..." []
  let call := Event.read UART_PORT_NUM RX_BUF_SIZE (1000 / portTICK_PERIOD_MS pf)
  let rxBytes := res.count
  let data1 := uart_read_bytes_fill data RX_BUF_SIZE res
  if rxBytes > 0 then
    match storeByte data1 rxBytes.toNat 0 with
    | none => none
    | some data2 =>
      some ([waiting, call,
             Event.logInfo RX_TASK_TAG "Read %d bytes: '%s'" [Arg.int rxBytes, Arg.str (cstr data2)],
             Event.hexdump RX_TASK_TAG (data2.take rxBytes.toNat)], data2)
  else
    some ([waiting, call, Event.logInfo RX_TASK_TAG "No data received yet." []], data1)

/-- The events of the first `n` iterations of the loop of `rx_task`, started on
the buffer `data`, where `reads i` is the driver's answer to the read of
iteration `i + k`; the second component tells whether all `n` iterations ran
without a store outside the buffer.  Such a store, after which the behaviour of
the program is undefined, ends the trace. -/
def rx_task_loop (pf : Platform) (reads : Nat → ReadResult) :
    Nat → Nat → List Nat → List Event × Bool
  | 0, _, _ => ([], true)
  | n + 1, k, data =>
    match rx_task_iteration pf data (reads k) with
    | none => ([Event.logInfo RX_TASK_TAG "Waiting for data..." [],
                Event.read UART_PORT_NUM RX_BUF_SIZE (1000 / portTICK_PERIOD_MS pf)], false)
    | some (events, data1) =>
      let rest := rx_task_loop pf reads n (k + 1) data1
      (events ++ rest.1, rest.2)

/-- The events of `rx_task` up to the end of its `n`-th loop iteration, on the
freshly allocated buffer `data`.  The loop has no exit, so the `free` after it
is never reached. -/
def rx_task (pf : Platform) (reads : Nat → ReadResult) (data : List Nat) (n : Nat) : List Event :=
  Event.logLevelSet RX_TASK_TAG esp_log_level_t.ESP_LOG_INFO :: (rx_task_loop pf reads n 0 data).1

/-! ## The transmit loop -/

/-- Function `sendData(logName, data)`, where `data` is the memory the pointer
refers to and `txBytes` is what the driver's `uart_write_bytes` returns.  Gives
the events of the call and the returned value. -/
def sendData (logName : String) (data : List Nat) (txBytes : Int) : List Event × Int :=
  let len := toInt32 (strlen data)
  ([Event.write UART_PORT_NUM data len,
    Event.logInfo logName "Wrote %d bytes" [Arg.int txBytes]], txBytes)

/-- The message `tx_task` sends, as the memory of its string literal. -/
def txMessage : List Nat := literal "Hello Mahender\r\n"

/-- One iteration of the `while (1)` body of `tx_task`; `txBytes` is what the
driver returns for the write of this iteration. -/
def tx_task_iteration (pf : Platform) (txBytes : Int) : List Event :=
  (sendData TX_TASK_TAG txMessage txBytes).1 ++ [Event.delay (pdMS_TO_TICKS pf 2000)]

/-- The loop of `tx_task` run for `fuel` iterations, where `writes k` is the
driver's answer to the write of iteration `k`.  The second component tells
whether the loop was left (the body has no `break` or `return`). -/
def tx_task_loop (pf : Platform) (writes : Nat → Int) : Nat → Nat → List Event × Bool
  | 0, _ => ([], false)
  | fuel + 1, k =>
    let rest := tx_task_loop pf writes fuel (k + 1)
    (tx_task_iteration pf (writes k) ++ rest.1, rest.2)

/-- The events of `tx_task` up to the end of its `n`-th loop iteration. -/
def tx_task (pf : Platform) (writes : Nat → Int) (n : Nat) : List Event :=
  Event.logLevelSet TX_TASK_TAG esp_log_level_t.ESP_LOG_INFO :: (tx_task_loop pf writes n 0).1

/-! ## Startup code -/

/-- A run of sequential startup code: the events performed and the value
returned, `none` when the process was aborted on the way. -/
structure Run (α : Type) where
  trace : List Event
  result : Option α

/-- A run that performs nothing and returns `a`. -/
def Run.ret {α : Type} (a : α) : Run α := ⟨[], some a⟩

/-- Sequencing: the second part runs only when the first was not aborted. -/
def Run.andThen {α β : Type} (x : Run α) (f : α → Run β) : Run β :=
  match x.result with
  | none => ⟨x.trace, none⟩
  | some a => ⟨x.trace ++ (f a).trace, (f a).result⟩

instance : Monad Run where
  pure := Run.ret
  bind := Run.andThen

/-- One SDK call, recorded as the event `e`, which hands back `r`. -/
def call {α : Type} (e : Event) (r : α) : Run α := ⟨[e], some r⟩

/-- Modelled from the spec: the SDK macro `ESP_ERROR_CHECK`, absent from the
source tree.  It evaluates the call and terminates the process (fatal, no
recovery path) when the call reports an error, that is a code other than
`ESP_OK`. -/
def ESP_ERROR_CHECK (x : Run Int) : Run Unit :=
  x.andThen fun rc => if rc = ESP_OK then Run.ret () else ⟨[Event.abort], none⟩

/-- The local `uart_config` of `uart_init`. -/
def uart_config : uart_config_t :=
  ⟨UART_BAUD_RATE, uart_word_length_t.UART_DATA_8_BITS, uart_parity_t.UART_PARITY_DISABLE,
   uart_stop_bits_t.UART_STOP_BITS_1, uart_hw_flowcontrol_t.UART_HW_FLOWCTRL_DISABLE,
   uart_sclk_t.UART_SCLK_DEFAULT⟩

/-- Function `uart_init`, where `rInstall`, `rConfig` and `rPin` are the error
codes the three driver calls report when they are made. -/
def uart_init (rInstall rConfig rPin : Int) : Run Unit := do
  ESP_ERROR_CHECK (call (Event.driverInstall UART_PORT_NUM ((RX_BUF_SIZE * 2 : Nat) : Int) 0 0 0) rInstall)
  ESP_ERROR_CHECK (call (Event.paramConfig UART_PORT_NUM uart_config) rConfig)
  ESP_ERROR_CHECK (call (Event.setPin UART_PORT_NUM TXD_PIN RXD_PIN UART_PIN_NO_CHANGE UART_PIN_NO_CHANGE) rPin)
  call (Event.logInfo TAG "UART initialized on TX=%d, RX=%d at %d baud"
    [Arg.int TXD_PIN, Arg.int RXD_PIN, Arg.int UART_BAUD_RATE]) ()

/-- Function `app_main`; the values returned by `xTaskCreate` are ignored, as in
the source. -/
def app_main (pf : Platform) (rInstall rConfig rPin : Int) : Run Unit := do
  uart_init rInstall rConfig rPin
  call (Event.delay (pdMS_TO_TICKS pf 500)) ()
  call (Event.taskCreate TaskFn.rx_task "uart_rx_task" TASK_STACK_SIZE (pf.configMAX_PRIORITIES - 1)) ()
  call (Event.taskCreate TaskFn.tx_task "uart_tx_task" TASK_STACK_SIZE (pf.configMAX_PRIORITIES - 2)) ()

/-! ## Observations on traces -/

/-- Whether an event is a driver read call. -/
def Event.isRead : Event → Bool
  | Event.read _ _ _ => true
  | _ => false

/-- Whether an event is a driver write call. -/
def Event.isWrite : Event → Bool
  | Event.write _ _ _ => true
  | _ => false

/-- Whether an event is a task creation. -/
def Event.isTaskCreate : Event → Bool
  | Event.taskCreate _ _ _ _ => true
  | _ => false

/-- Whether an event is the creation of a task running `fn`. -/
def Event.creates (fn : TaskFn) : Event → Bool
  | Event.taskCreate g _ _ _ => g == fn
  | _ => false

/-- The ticks for which an event suspends the calling task; the time the other
calls take is not modelled, so sums of these are lower bounds of elapsed time. -/
def Event.ticks : Event → Nat
  | Event.delay t => t
  | _ => 0

/-- The modelled start times, in ticks, of the driver writes of a trace that
starts at time `now`. -/
def writeStarts : Nat → List Event → List Nat
  | _, [] => []
  | now, e :: es =>
    if e.isWrite then now :: writeStarts (now + e.ticks) es
    else writeStarts (now + e.ticks) es

/-- Ideal loopback wiring: what the next driver read returns when the driver
accepted the whole request of the write call `e` and the receive pin sees
exactly the bytes sent. -/
def idealLoopback : Event → ReadResult
  | Event.write _ src size => ⟨size, src.take size.toNat⟩
  | _ => ⟨0, []⟩

/-! ## The whole program under an arbitrary schedule -/

/-- The threads of the program: the one running `app_main` and the two tasks. -/
inductive Thread
  | main | rx | tx
  deriving DecidableEq, Repr

/-- Everything the SDK hands back during a run of the whole program: the error
codes of the three driver calls of `uart_init`, whether each `xTaskCreate`
succeeds, the answers to the writes and reads of the tasks, and the initial
content of the buffer `rx_task` allocates. -/
structure Env where
  rInstall : Int
  rConfig : Int
  rPin : Int
  rxCreated : Bool
  txCreated : Bool
  writes : Nat → Int
  reads : Nat → ReadResult
  heap : List Nat

/-- The state of a run: the events `app_main` has still to perform and, for
each task that has been created, the events it has still to perform. -/
structure Sys where
  mainTodo : List Event
  rxTodo : Option (List Event)
  txTodo : Option (List Event)

/-- The effect on the other threads of an event of the main thread: a
successful `xTaskCreate` starts the task, `abort` stops the whole process. -/
def Sys.spawn (rxAll txAll : List Event) (env : Env) (e : Event) (s : Sys) : Sys :=
  match e with
  | Event.taskCreate TaskFn.rx_task _ _ _ =>
    if env.rxCreated then ⟨s.mainTodo, some rxAll, s.txTodo⟩ else s
  | Event.taskCreate TaskFn.tx_task _ _ _ =>
    if env.txCreated then ⟨s.mainTodo, s.rxTodo, some txAll⟩ else s
  | Event.abort => ⟨[], none, none⟩
  | _ => s

/-- One scheduling decision: thread `t` performs its next event, if it is
running and has one. -/
def Sys.step (rxAll txAll : List Event) (env : Env) (s : Sys) (t : Thread) : Sys × Option Event :=
  match t with
  | Thread.main =>
    match s.mainTodo with
    | [] => (s, none)
    | e :: rest => (Sys.spawn rxAll txAll env e ⟨rest, s.rxTodo, s.txTodo⟩, some e)
  | Thread.rx =>
    match s.rxTodo with
    | some (e :: rest) => (⟨s.mainTodo, some rest, s.txTodo⟩, some e)
    | _ => (s, none)
  | Thread.tx =>
    match s.txTodo with
    | some (e :: rest) => (⟨s.mainTodo, s.rxTodo, some rest⟩, some e)
    | _ => (s, none)

/-- The events of the whole program under the schedule `sched`. -/
def Sys.run (rxAll txAll : List Event) (env : Env) : Sys → List Thread → List Event
  | _, [] => []
  | s, t :: ts =>
    match (Sys.step rxAll txAll env s t).2 with
    | none => Sys.run rxAll txAll env (Sys.step rxAll txAll env s t).1 ts
    | some e => e :: Sys.run rxAll txAll env (Sys.step rxAll txAll env s t).1 ts

/-- The trace of the program started at `app_main`, for the answers `env` of
the SDK and the schedule `sched`.  Each scheduling decision performs at most
one event, so `sched.length` loop iterations of each task cover the run. -/
def systemTrace (pf : Platform) (env : Env) (sched : List Thread) : List Event :=
  Sys.run (rx_task pf env.reads env.heap sched.length) (tx_task pf env.writes sched.length) env
    ⟨(app_main pf env.rInstall env.rConfig env.rPin).trace, none, none⟩ sched

/-- The platform the SDK configures by default: 100 Hz tick, 25 priorities. -/
def defaultPlatform : Platform := ⟨100, 25, by decide, by decide, by decide⟩

/-- A run in which all SDK calls succeed, every write is accepted whole and
every read returns the message. -/
def loopbackEnv : Env :=
  ⟨0, 0, 0, true, true, fun _ => 16, fun _ => ⟨16, txMessage.take 16⟩, List.replicate 1025 0⟩

/-- A schedule that lets `app_main` run up to its first task creation and then
the receive task up to its first read. -/
def firstReadSchedule : List Thread :=
  [Thread.main, Thread.main, Thread.main, Thread.main, Thread.main, Thread.main,
   Thread.rx, Thread.rx, Thread.rx]

/-! ## Lemmas on C strings and the buffer -/

/-- The C string in front of a zero byte does not depend on what follows it. -/
theorem cstr_append_zero (p rest : List Nat) : cstr (p ++ 0 :: rest) = cstr p := by
  induction p with
  | nil => simp [cstr]
  | cons b p ih =>
    by_cases hb : b = 0
    · subst hb; simp [cstr]
    · have : (b != 0) = true := by simpa using hb
      simp only [cstr] at ih ⊢
      simp [List.takeWhile_cons, this, ih]

/-- The C string at `p` is all of `p` exactly when `p` has no zero byte. -/
theorem cstr_eq_self_iff (p : List Nat) : cstr p = p ↔ 0 ∉ p := by
  induction p with
  | nil => simp [cstr]
  | cons b p ih =>
    by_cases hb : b = 0
    · subst hb; simp [cstr]
    · have hb2 : (b != 0) = true := by simpa using hb
      simp only [cstr] at ih ⊢
      simp [List.takeWhile_cons, hb2, ih, Ne.symm hb]

/-- The C string at `p` is not longer than `p`. -/
theorem cstr_length_le (p : List Nat) : (cstr p).length ≤ p.length := by
  induction p with
  | nil => simp [cstr]
  | cons b p ih =>
    simp only [cstr] at ih ⊢
    rw [List.takeWhile_cons]
    split
    · simp; omega
    · simp

/-- The C string at `p` is shorter than `p` when `p` has a zero byte. -/
theorem cstr_length_lt (p : List Nat) (h : 0 ∈ p) : (cstr p).length < p.length := by
  rcases Nat.lt_or_ge (cstr p).length p.length with h1 | h1
  · exact h1
  · exfalso
    have hle := cstr_length_le p
    have hsub : (cstr p).Sublist p := by
      simp only [cstr]; exact (List.takeWhile_prefix _).sublist
    have := hsub.eq_of_length (by omega)
    exact (cstr_eq_self_iff p).1 this h

/-- The buffer after the driver copied a payload of `count` bytes, for a count
within the request. -/
theorem fill_full (data : List Nat) (res : ReadResult) (hpos : 0 < res.count)
    (hle : res.count ≤ 1024) (hpay : (res.payload.length : Int) = res.count) :
    uart_read_bytes_fill data RX_BUF_SIZE res = res.payload ++ data.drop res.payload.length := by
  have h1 : res.count.toNat = res.payload.length := by omega
  have h2 : res.payload.length ≤ 1024 := by omega
  simp [uart_read_bytes_fill, RX_BUF_SIZE, h1, h2]

/-- The driver's copy keeps the size of a buffer that holds the request. -/
theorem fill_length (data : List Nat) (res : ReadResult) (hlen : RX_BUF_SIZE ≤ data.length) :
    (uart_read_bytes_fill data RX_BUF_SIZE res).length = data.length := by
  simp only [uart_read_bytes_fill, List.length_append, List.length_drop, List.length_take]
  omega

/-- The terminator store right behind a payload that fits the buffer. -/
theorem store_after (p data : List Nat) (h : p.length < data.length) :
    storeByte (p ++ data.drop p.length) p.length 0 = some (p ++ 0 :: data.drop (p.length + 1)) := by
  have hl : p.length < (p ++ data.drop p.length).length := by simp; omega
  simp only [storeByte, hl, if_true]
  congr 1
  rw [List.set_append_right _ _ (le_refl _)]
  rw [List.drop_eq_getElem_cons h]
  simp only [Nat.sub_self, List.set_cons_zero]


/-- The `count > 0` branch of `rx_task` on a payload of `count` bytes: the
events of the iteration and the buffer it leaves. -/
theorem rx_task_iteration_received (pf : Platform) (data : List Nat) (res : ReadResult)
    (hlen : data.length = RX_BUF_SIZE + 1) (hpos : 0 < res.count) (hle : res.count ≤ 1024)
    (hpay : (res.payload.length : Int) = res.count) :
    rx_task_iteration pf data res
      = some ([Event.logInfo RX_TASK_TAG "Waiting for data..." [],
               Event.read UART_PORT_NUM RX_BUF_SIZE (1000 / portTICK_PERIOD_MS pf),
               Event.logInfo RX_TASK_TAG "Read %d bytes: '%s'"
                 [Arg.int res.count, Arg.str (cstr res.payload)],
               Event.hexdump RX_TASK_TAG res.payload],
              res.payload ++ 0 :: data.drop (res.payload.length + 1)) := by
  have h1 : res.count.toNat = res.payload.length := by omega
  have h2 : res.payload.length < data.length := by rw [hlen]; simp only [RX_BUF_SIZE]; omega
  have hst := store_after res.payload data h2
  simp only [rx_task_iteration, gt_iff_lt, hpos, if_true, fill_full data res hpos hle hpay,
    h1, hst, cstr_append_zero]
  simp

/-! ## Claims on the receive loop -/

/-- C1: in one iteration of `rx_task` on the 1025-byte scratch buffer, for every
read result with `0 < count ≤ 1024` the terminator store succeeds at index
`count`, which is below `RX_BUF_SIZE + 1 = 1025`; the buffer keeps its size
(nothing at or beyond index 1025 is written), holds the zero byte at index
`count`, and for `count = 1024` the zero byte is at index 1024. -/
theorem rx_task_terminator_in_bounds (pf : Platform) (data : List Nat) (res : ReadResult)
    (hlen : data.length = RX_BUF_SIZE + 1) (hpos : 0 < res.count) (hle : res.count ≤ 1024) :
    res.count.toNat < RX_BUF_SIZE + 1 ∧
    ∃ events data2, rx_task_iteration pf data res = some (events, data2) ∧
      storeByte (uart_read_bytes_fill data RX_BUF_SIZE res) res.count.toNat 0 = some data2 ∧
      data2.length = RX_BUF_SIZE + 1 ∧
      data2[res.count.toNat]? = some 0 ∧
      (res.count = 1024 → data2[1024]? = some 0 ∧ data2[1025]? = none) := by
  have hn : res.count.toNat < RX_BUF_SIZE + 1 := by simp only [RX_BUF_SIZE]; omega
  have hfl : (uart_read_bytes_fill data RX_BUF_SIZE res).length = RX_BUF_SIZE + 1 := by
    rw [fill_length data res (by omega)]; exact hlen
  have hst : storeByte (uart_read_bytes_fill data RX_BUF_SIZE res) res.count.toNat 0
      = some ((uart_read_bytes_fill data RX_BUF_SIZE res).set res.count.toNat 0) := by
    simp only [storeByte, hfl, hn, if_true]
  refine ⟨hn, [Event.logInfo RX_TASK_TAG "Waiting for data..." [],
      Event.read UART_PORT_NUM RX_BUF_SIZE (1000 / portTICK_PERIOD_MS pf),
      Event.logInfo RX_TASK_TAG "Read %d bytes: '%s'" [Arg.int res.count,
        Arg.str (cstr ((uart_read_bytes_fill data RX_BUF_SIZE res).set res.count.toNat 0))],
      Event.hexdump RX_TASK_TAG
        (((uart_read_bytes_fill data RX_BUF_SIZE res).set res.count.toNat 0).take res.count.toNat)],
    (uart_read_bytes_fill data RX_BUF_SIZE res).set res.count.toNat 0, ?_, hst, ?_, ?_, ?_⟩
  · simp only [rx_task_iteration, gt_iff_lt, hpos, if_true, hst]
  · simpa using hfl
  · rw [List.getElem?_set_self (by rw [hfl]; exact hn)]
  · intro h
    have h1 : res.count.toNat = 1024 := by omega
    constructor
    · rw [← h1, List.getElem?_set_self (by rw [hfl]; exact hn)]
    · rw [List.getElem?_eq_none_iff, List.length_set, hfl]
      exact le_refl _

/-- Witness of C1: a full read of 1024 bytes into a 1025-byte buffer. -/
theorem rx_task_terminator_in_bounds_witness :
    (⟨1024, List.replicate 1024 65⟩ : ReadResult).count.toNat < RX_BUF_SIZE + 1 ∧
    ∃ events data2,
      rx_task_iteration defaultPlatform (List.replicate 1025 7) ⟨1024, List.replicate 1024 65⟩
        = some (events, data2) ∧
      storeByte (uart_read_bytes_fill (List.replicate 1025 7) RX_BUF_SIZE
        ⟨1024, List.replicate 1024 65⟩) (⟨1024, List.replicate 1024 65⟩ : ReadResult).count.toNat 0
        = some data2 ∧
      data2.length = RX_BUF_SIZE + 1 ∧
      data2[(⟨1024, List.replicate 1024 65⟩ : ReadResult).count.toNat]? = some 0 ∧
      ((⟨1024, List.replicate 1024 65⟩ : ReadResult).count = 1024 →
        data2[1024]? = some 0 ∧ data2[1025]? = none) :=
  rx_task_terminator_in_bounds defaultPlatform (List.replicate 1025 7)
    ⟨1024, List.replicate 1024 65⟩ (List.length_replicate 1025 7) (by decide) (by decide)

/-- C2: in one iteration of `rx_task`, for every read result with `count ≤ 0`
the events are the "Waiting for data..." notice, the read call and one
"No data received yet." notice, with no byte-count line and no hex dump; the
scratch buffer is unchanged; and the events are those of a read result with
count zero. -/
theorem rx_task_no_data (pf : Platform) (data : List Nat) (res : ReadResult)
    (hcount : res.count ≤ 0) :
    rx_task_iteration pf data res
      = some ([Event.logInfo RX_TASK_TAG "Waiting for data..." [],
               Event.read UART_PORT_NUM RX_BUF_SIZE (1000 / portTICK_PERIOD_MS pf),
               Event.logInfo RX_TASK_TAG "No data received yet." []], data) ∧
    (rx_task_iteration pf data res).map Prod.fst
      = (rx_task_iteration pf data ⟨0, []⟩).map Prod.fst := by
  have h0 : res.count.toNat = 0 := by omega
  have hf : uart_read_bytes_fill data RX_BUF_SIZE res = data := by
    simp [uart_read_bytes_fill, h0]
  have hn : ¬ (res.count > 0) := by omega
  constructor
  · simp only [rx_task_iteration, hn, if_false, hf]
  · simp only [rx_task_iteration, hn, if_false, hf]
    simp

/-- Witness of C2: a driver error (count `-1`) on a small buffer. -/
theorem rx_task_no_data_witness :
    rx_task_iteration defaultPlatform [7, 7, 7] ⟨-1, [1, 2]⟩
      = some ([Event.logInfo RX_TASK_TAG "Waiting for data..." [],
               Event.read UART_PORT_NUM RX_BUF_SIZE (1000 / portTICK_PERIOD_MS defaultPlatform),
               Event.logInfo RX_TASK_TAG "No data received yet." []], [7, 7, 7]) ∧
    (rx_task_iteration defaultPlatform [7, 7, 7] ⟨-1, [1, 2]⟩).map Prod.fst
      = (rx_task_iteration defaultPlatform [7, 7, 7] ⟨0, []⟩).map Prod.fst :=
  rx_task_no_data defaultPlatform [7, 7, 7] ⟨-1, [1, 2]⟩ (by decide)

/-- C3: in one iteration of `rx_task` on the 1025-byte scratch buffer, for every
read result with `0 < count ≤ 1024` and every payload of `count` bytes, the
buffer afterwards holds the payload in bytes `0..count-1`, zero at position
`count` and its old content behind; the events are the waiting notice, the read
call, one line carrying `count` and the buffer as text, and then a hex dump of
the first `count` bytes of the buffer; no "No data received yet." notice is
among them. -/
theorem rx_task_bytes_received (pf : Platform) (data : List Nat) (res : ReadResult)
    (hlen : data.length = RX_BUF_SIZE + 1) (hpos : 0 < res.count) (hle : res.count ≤ 1024)
    (hpay : (res.payload.length : Int) = res.count) :
    ∃ events data2, rx_task_iteration pf data res = some (events, data2) ∧
      data2[res.count.toNat]? = some 0 ∧
      data2.take res.count.toNat = res.payload ∧
      data2.drop (res.count.toNat + 1) = data.drop (res.count.toNat + 1) ∧
      events = [Event.logInfo RX_TASK_TAG "Waiting for data..." [],
                Event.read UART_PORT_NUM RX_BUF_SIZE (1000 / portTICK_PERIOD_MS pf),
                Event.logInfo RX_TASK_TAG "Read %d bytes: '%s'"
                  [Arg.int res.count, Arg.str (cstr data2)],
                Event.hexdump RX_TASK_TAG (data2.take res.count.toNat)] ∧
      Event.logInfo RX_TASK_TAG "No data received yet." [] ∉ events := by
  have h1 : res.count.toNat = res.payload.length := by omega
  have h2 : res.payload.length < data.length := by rw [hlen]; simp only [RX_BUF_SIZE]; omega
  have hst := store_after res.payload data h2
  refine ⟨_, res.payload ++ 0 :: data.drop (res.payload.length + 1), ?_, ?_, ?_, ?_, rfl, ?_⟩
  · simp only [rx_task_iteration, gt_iff_lt, hpos, if_true, fill_full data res hpos hle hpay,
      h1, hst]
  · rw [h1, List.getElem?_append_right (le_refl _)]; simp
  · rw [h1]; simp
  · rw [h1]; simp
  · simp

/-- Witness of C3: three bytes received into a 1025-byte buffer. -/
theorem rx_task_bytes_received_witness :
    ∃ events data2,
      rx_task_iteration defaultPlatform (List.replicate 1025 7) ⟨3, [72, 105, 33]⟩
        = some (events, data2) ∧
      data2[(⟨3, [72, 105, 33]⟩ : ReadResult).count.toNat]? = some 0 ∧
      data2.take (⟨3, [72, 105, 33]⟩ : ReadResult).count.toNat
        = (⟨3, [72, 105, 33]⟩ : ReadResult).payload ∧
      data2.drop ((⟨3, [72, 105, 33]⟩ : ReadResult).count.toNat + 1)
        = (List.replicate 1025 7).drop ((⟨3, [72, 105, 33]⟩ : ReadResult).count.toNat + 1) ∧
      events = [Event.logInfo RX_TASK_TAG "Waiting for data..." [],
                Event.read UART_PORT_NUM RX_BUF_SIZE (1000 / portTICK_PERIOD_MS defaultPlatform),
                Event.logInfo RX_TASK_TAG "Read %d bytes: '%s'"
                  [Arg.int (⟨3, [72, 105, 33]⟩ : ReadResult).count, Arg.str (cstr data2)],
                Event.hexdump RX_TASK_TAG
                  (data2.take (⟨3, [72, 105, 33]⟩ : ReadResult).count.toNat)] ∧
      Event.logInfo RX_TASK_TAG "No data received yet." [] ∉ events :=
  rx_task_bytes_received defaultPlatform (List.replicate 1025 7) ⟨3, [72, 105, 33]⟩
    (List.length_replicate 1025 7) (by decide) (by decide) (by decide)

/-- C10: in the `count > 0` branch of `rx_task`, for a payload of `count` bytes
the text logged through `%s` is the part of the payload before its first zero
byte; it is the whole payload exactly when the payload has no zero byte; the
hex dump is the whole payload; and for a payload with a zero byte the text is
strictly shorter than `count`. -/
theorem rx_task_text_stops_at_zero (pf : Platform) (data : List Nat) (res : ReadResult)
    (hlen : data.length = RX_BUF_SIZE + 1) (hpos : 0 < res.count) (hle : res.count ≤ 1024)
    (hpay : (res.payload.length : Int) = res.count) :
    ∃ text data2,
      rx_task_iteration pf data res
        = some ([Event.logInfo RX_TASK_TAG "Waiting for data..." [],
                 Event.read UART_PORT_NUM RX_BUF_SIZE (1000 / portTICK_PERIOD_MS pf),
                 Event.logInfo RX_TASK_TAG "Read %d bytes: '%s'" [Arg.int res.count, Arg.str text],
                 Event.hexdump RX_TASK_TAG res.payload], data2) ∧
      text = res.payload.takeWhile (fun b => b != 0) ∧
      text <+: res.payload ∧
      (text = res.payload ↔ 0 ∉ res.payload) ∧
      (0 ∈ res.payload → (text.length : Int) < res.count) := by
  refine ⟨cstr res.payload, res.payload ++ 0 :: data.drop (res.payload.length + 1),
    rx_task_iteration_received pf data res hlen hpos hle hpay, rfl, ?_, ?_, ?_⟩
  · exact List.takeWhile_prefix _
  · exact cstr_eq_self_iff res.payload
  · intro h0
    have hlt := cstr_length_lt res.payload h0
    omega

/-- Witness of C10: a payload with an embedded zero byte. -/
theorem rx_task_text_stops_at_zero_witness :
    ∃ text data2,
      rx_task_iteration defaultPlatform (List.replicate 1025 7) ⟨4, [72, 105, 0, 33]⟩
        = some ([Event.logInfo RX_TASK_TAG "Waiting for data..." [],
                 Event.read UART_PORT_NUM RX_BUF_SIZE (1000 / portTICK_PERIOD_MS defaultPlatform),
                 Event.logInfo RX_TASK_TAG "Read %d bytes: '%s'"
                   [Arg.int (⟨4, [72, 105, 0, 33]⟩ : ReadResult).count, Arg.str text],
                 Event.hexdump RX_TASK_TAG (⟨4, [72, 105, 0, 33]⟩ : ReadResult).payload], data2) ∧
      text = (⟨4, [72, 105, 0, 33]⟩ : ReadResult).payload.takeWhile (fun b => b != 0) ∧
      text <+: (⟨4, [72, 105, 0, 33]⟩ : ReadResult).payload ∧
      (text = (⟨4, [72, 105, 0, 33]⟩ : ReadResult).payload
        ↔ 0 ∉ (⟨4, [72, 105, 0, 33]⟩ : ReadResult).payload) ∧
      (0 ∈ (⟨4, [72, 105, 0, 33]⟩ : ReadResult).payload →
        (text.length : Int) < (⟨4, [72, 105, 0, 33]⟩ : ReadResult).count) :=
  rx_task_text_stops_at_zero defaultPlatform (List.replicate 1025 7) ⟨4, [72, 105, 0, 33]⟩
    (List.length_replicate 1025 7) (by decide) (by decide) (by decide)


/-! ## Claims on the initializer -/

/-- C4: `uart_init` performs driver install, parameter configuration and pin
binding in this order; for every combination of step results, a step that
reports an error is followed by the abort and by nothing else (no later step,
no confirmation line), and when all three steps succeed the trace is the three
steps followed by exactly one confirmation line with TX pin 25, RX pin 26 and
115200 baud. -/
theorem uart_init_steps (rInstall rConfig rPin : Int) :
    (rInstall ≠ ESP_OK →
      (uart_init rInstall rConfig rPin).trace
        = [Event.driverInstall UART_PORT_NUM 2048 0 0 0, Event.abort] ∧
      (uart_init rInstall rConfig rPin).result = none) ∧
    (rInstall = ESP_OK → rConfig ≠ ESP_OK →
      (uart_init rInstall rConfig rPin).trace
        = [Event.driverInstall UART_PORT_NUM 2048 0 0 0,
           Event.paramConfig UART_PORT_NUM uart_config, Event.abort] ∧
      (uart_init rInstall rConfig rPin).result = none) ∧
    (rInstall = ESP_OK → rConfig = ESP_OK → rPin ≠ ESP_OK →
      (uart_init rInstall rConfig rPin).trace
        = [Event.driverInstall UART_PORT_NUM 2048 0 0 0,
           Event.paramConfig UART_PORT_NUM uart_config,
           Event.setPin UART_PORT_NUM 25 26 UART_PIN_NO_CHANGE UART_PIN_NO_CHANGE, Event.abort] ∧
      (uart_init rInstall rConfig rPin).result = none) ∧
    (rInstall = ESP_OK → rConfig = ESP_OK → rPin = ESP_OK →
      (uart_init rInstall rConfig rPin).trace
        = [Event.driverInstall UART_PORT_NUM 2048 0 0 0,
           Event.paramConfig UART_PORT_NUM uart_config,
           Event.setPin UART_PORT_NUM 25 26 UART_PIN_NO_CHANGE UART_PIN_NO_CHANGE,
           Event.logInfo TAG "UART initialized on TX=%d, RX=%d at %d baud"
             [Arg.int 25, Arg.int 26, Arg.int 115200]] ∧
      (uart_init rInstall rConfig rPin).result = some ()) := by
  refine ⟨?_, ?_, ?_, ?_⟩
  · intro h1
    simp [uart_init, bind, Run.andThen, ESP_ERROR_CHECK, call, Run.ret, h1, RX_BUF_SIZE]
  · intro h1 h2
    simp [uart_init, bind, Run.andThen, ESP_ERROR_CHECK, call, Run.ret, h1, h2, RX_BUF_SIZE]
  · intro h1 h2 h3
    simp [uart_init, bind, Run.andThen, ESP_ERROR_CHECK, call, Run.ret, h1, h2, h3, RX_BUF_SIZE,
      TXD_PIN, RXD_PIN]
  · intro h1 h2 h3
    simp [uart_init, bind, Run.andThen, ESP_ERROR_CHECK, call, Run.ret, h1, h2, h3, RX_BUF_SIZE,
      TXD_PIN, RXD_PIN, UART_BAUD_RATE]

/-- Witness of C4: the parameter configuration fails with code 258 after a
successful install. -/
theorem uart_init_steps_witness :
    (uart_init 0 258 0).trace
      = [Event.driverInstall UART_PORT_NUM 2048 0 0 0,
         Event.paramConfig UART_PORT_NUM uart_config, Event.abort] ∧
    (uart_init 0 258 0).result = none :=
  (uart_init_steps 0 258 0).2.1 rfl (by decide)

/-- C5, as the claim states it, fails: the receive buffer size `uart_init`
requests at driver install is not the capacity `RX_BUF_SIZE = 1024`. -/
theorem uart_init_install_not_rx_buf_size :
    ¬ ((uart_init 0 0 0).trace.head?
        = some (Event.driverInstall UART_PORT_NUM (RX_BUF_SIZE : Nat) 0 0 0)) := by
  decide

/-- C5, amended: whatever the step results, the first call of `uart_init` is the
driver install on the configured port with a receive buffer of twice the
capacity, `2 * RX_BUF_SIZE = 2048` bytes, and with transmit buffer size and
event queue size zero; the capacity `RX_BUF_SIZE` is 1024 bytes and is what
`rx_task` requests per read. -/
theorem uart_init_install_request (rInstall rConfig rPin : Int) (pf : Platform)
    (data : List Nat) (res : ReadResult) :
    (uart_init rInstall rConfig rPin).trace.head?
      = some (Event.driverInstall UART_PORT_NUM ((2 * RX_BUF_SIZE : Nat) : Int) 0 0 0) ∧
    2 * RX_BUF_SIZE = 2048 ∧ RX_BUF_SIZE = 1024 ∧
    (∀ events data2, rx_task_iteration pf data res = some (events, data2) →
      events[1]? = some (Event.read UART_PORT_NUM RX_BUF_SIZE (1000 / portTICK_PERIOD_MS pf))) := by
  refine ⟨?_, rfl, rfl, ?_⟩
  · by_cases h1 : rInstall = ESP_OK
    · simp [uart_init, bind, Run.andThen, ESP_ERROR_CHECK, call, Run.ret, h1, RX_BUF_SIZE]
    · simp [uart_init, bind, Run.andThen, ESP_ERROR_CHECK, call, Run.ret, h1, RX_BUF_SIZE]
  · intro events data2 h
    simp only [rx_task_iteration] at h
    split at h
    · split at h
      · exact absurd h (by simp)
      · simp only [Option.some.injEq, Prod.mk.injEq] at h
        rw [← h.1]; rfl
    · simp only [Option.some.injEq, Prod.mk.injEq] at h
      rw [← h.1]; rfl

/-! ## Claims on the transmit side -/

/-- C6: for every string `data` (shorter than `2^31` bytes, so that its length
fits the `int` the source stores it in) and every result `n` of the driver
write, short or negative included, `sendData` issues exactly one driver write,
requesting `strlen(data)` bytes of `data`, then logs `n`, and returns `n`. -/
theorem sendData_single_write (logName : String) (data : List Nat) (n : Int)
    (hfit : strlen data < 2 ^ 31) :
    (sendData logName data n).1
      = [Event.write UART_PORT_NUM data (strlen data),
         Event.logInfo logName "Wrote %d bytes" [Arg.int n]] ∧
    (sendData logName data n).2 = n ∧
    ((sendData logName data n).1.filter Event.isWrite).length = 1 := by
  have h32 : strlen data % 2 ^ 32 = strlen data := Nat.mod_eq_of_lt (by omega)
  have hlen : toInt32 (strlen data) = (strlen data : Int) := by
    simp only [toInt32, h32, hfit, if_true]
  simp only [sendData, hlen]
  simp [Event.isWrite]

/-- Witness of C6: a short write, 5 of the 16 bytes of the message accepted. -/
theorem sendData_single_write_witness :
    (sendData TX_TASK_TAG txMessage 5).1
      = [Event.write UART_PORT_NUM txMessage (strlen txMessage),
         Event.logInfo TX_TASK_TAG "Wrote %d bytes" [Arg.int 5]] ∧
    (sendData TX_TASK_TAG txMessage 5).2 = 5 ∧
    ((sendData TX_TASK_TAG txMessage 5).1.filter Event.isWrite).length = 1 :=
  sendData_single_write TX_TASK_TAG txMessage 5 (by decide)

/-- C7: round trip under ideal loopback.  The message `tx_task` passes to
`sendData` is "Hello Mahender\r\n", the write of an iteration requests 16 bytes
of it, and the `rx_task` iteration whose read returns what that write sent logs
count 16, logs the text "Hello Mahender\r\n" and hex-dumps these 16 bytes in
the same order. -/
theorem round_trip_loopback (pf : Platform) (data : List Nat)
    (hlen : data.length = RX_BUF_SIZE + 1) :
    cstr txMessage = "Hello Mahender\r\n".toList.map Char.toNat ∧
    strlen txMessage = 16 ∧
    ∃ w data2,
      (tx_task_iteration pf 16).find? Event.isWrite = some w ∧
      w = Event.write UART_PORT_NUM txMessage 16 ∧
      rx_task_iteration pf data (idealLoopback w)
        = some ([Event.logInfo RX_TASK_TAG "Waiting for data..." [],
                 Event.read UART_PORT_NUM RX_BUF_SIZE (1000 / portTICK_PERIOD_MS pf),
                 Event.logInfo RX_TASK_TAG "Read %d bytes: '%s'"
                   [Arg.int 16, Arg.str ("Hello Mahender\r\n".toList.map Char.toNat)],
                 Event.hexdump RX_TASK_TAG ("Hello Mahender\r\n".toList.map Char.toNat)],
                data2) := by
  have hmsg : cstr txMessage = "Hello Mahender\r\n".toList.map Char.toNat := by decide
  have hw : (tx_task_iteration pf 16).find? Event.isWrite
      = some (Event.write UART_PORT_NUM txMessage 16) := by
    have : toInt32 (strlen txMessage) = 16 := by decide
    simp only [tx_task_iteration, sendData, this]
    rfl
  have hres : idealLoopback (Event.write UART_PORT_NUM txMessage 16)
      = ⟨16, "Hello Mahender\r\n".toList.map Char.toNat⟩ := by decide
  have hrun := rx_task_iteration_received pf data
    ⟨16, "Hello Mahender\r\n".toList.map Char.toNat⟩ hlen (by decide) (by decide) (by decide)
  have htext : cstr (⟨16, "Hello Mahender\r\n".toList.map Char.toNat⟩ : ReadResult).payload
      = "Hello Mahender\r\n".toList.map Char.toNat := by decide
  refine ⟨hmsg, by decide, _, "Hello Mahender\r\n".toList.map Char.toNat ++ 0 :: data.drop 17,
    hw, rfl, ?_⟩
  rw [hres, hrun, htext]
  rfl

/-- Witness of C7: the round trip into a zeroed 1025-byte buffer. -/
theorem round_trip_loopback_witness :
    cstr txMessage = "Hello Mahender\r\n".toList.map Char.toNat ∧
    strlen txMessage = 16 ∧
    ∃ w data2,
      (tx_task_iteration defaultPlatform 16).find? Event.isWrite = some w ∧
      w = Event.write UART_PORT_NUM txMessage 16 ∧
      rx_task_iteration defaultPlatform (List.replicate 1025 0) (idealLoopback w)
        = some ([Event.logInfo RX_TASK_TAG "Waiting for data..." [],
                 Event.read UART_PORT_NUM RX_BUF_SIZE (1000 / portTICK_PERIOD_MS defaultPlatform),
                 Event.logInfo RX_TASK_TAG "Read %d bytes: '%s'"
                   [Arg.int 16, Arg.str ("Hello Mahender\r\n".toList.map Char.toNat)],
                 Event.hexdump RX_TASK_TAG ("Hello Mahender\r\n".toList.map Char.toNat)],
                data2) :=
  round_trip_loopback defaultPlatform (List.replicate 1025 0) (List.length_replicate 1025 0)


/-! ## The transmit loop over time -/

/-- The three events of one iteration of `tx_task`. -/
theorem tx_task_iteration_eq (pf : Platform) (n : Int) :
    tx_task_iteration pf n
      = [Event.write UART_PORT_NUM txMessage 16,
         Event.logInfo TX_TASK_TAG "Wrote %d bytes" [Arg.int n],
         Event.delay (pdMS_TO_TICKS pf 2000)] := by
  have : toInt32 (strlen txMessage) = 16 := by decide
  simp only [tx_task_iteration, sendData, this]
  rfl

/-- The loop of `tx_task` is not left, whatever fuel it is given. -/
theorem tx_task_loop_never_exits (pf : Platform) (writes : Nat → Int) (n k : Nat) :
    (tx_task_loop pf writes n k).2 = false := by
  induction n generalizing k with
  | zero => rfl
  | succ n ih => simp only [tx_task_loop, ih]

/-- The trace of the loop of `tx_task` is its iterations one after the other. -/
theorem tx_task_loop_trace (pf : Platform) (writes : Nat → Int) (n k : Nat) :
    (tx_task_loop pf writes n k).1
      = ((List.range n).map (fun i => tx_task_iteration pf (writes (k + i)))).flatten := by
  induction n generalizing k with
  | zero => rfl
  | succ n ih =>
    simp only [tx_task_loop, ih, List.range_succ_eq_map, List.map_cons, List.map_map,
      List.flatten_cons, Nat.add_zero]
    congr 3
    funext i
    simp only [Function.comp, Nat.succ_eq_add_one]
    congr 2
    omega

/-- Write start times over a concatenation of traces. -/
theorem writeStarts_append (now : Nat) (xs ys : List Event) :
    writeStarts now (xs ++ ys)
      = writeStarts now xs ++ writeStarts (now + (xs.map Event.ticks).sum) ys := by
  induction xs generalizing now with
  | nil => simp [writeStarts]
  | cons e es ih =>
    simp only [List.cons_append, writeStarts, List.map_cons, List.sum_cons]
    split
    · simp only [List.append_eq, ih, Nat.add_assoc, List.cons_append]
    · simp only [List.append_eq, ih, Nat.add_assoc]

/-- The write start times of the loop of `tx_task`: one per iteration, one
suspension apart. -/
theorem writeStarts_tx_task_loop (pf : Platform) (writes : Nat → Int) (n k now : Nat) :
    writeStarts now (tx_task_loop pf writes n k).1
      = (List.range n).map (fun i => now + i * pdMS_TO_TICKS pf 2000) := by
  induction n generalizing k now with
  | zero => rfl
  | succ n ih =>
    simp only [tx_task_loop, tx_task_iteration_eq, List.cons_append, List.nil_append,
      writeStarts, Event.isWrite, Event.ticks, if_true, Nat.add_zero,
      List.range_succ_eq_map, List.map_cons, List.map_map, Nat.zero_mul]
    simp only [Bool.false_eq_true, if_false]
    congr 1
    change writeStarts (now + pdMS_TO_TICKS pf 2000) (tx_task_loop pf writes n (k + 1)).1 = _
    rw [ih]
    apply List.map_congr_left
    intro i _
    simp only [Function.comp, Nat.succ_eq_add_one]
    ring

/-- An element of an initial segment is the element of the whole list at the
same index. -/
theorem getElem?_of_isPrefix {α : Type} {l1 l2 : List α} (h : l1 <+: l2) {i : Nat} {a : α}
    (ha : l1[i]? = some a) : l2[i]? = some a := by
  obtain ⟨t, rfl⟩ := h
  have hi : i < l1.length := by
    by_contra hc
    rw [List.getElem?_eq_none (by omega)] at ha
    exact absurd ha (by simp)
  rw [List.getElem?_append_left hi, ha]

/-- C9: the loop of `tx_task` never exits, whatever the number of iterations
run; its trace is, iteration after iteration, one `sendData` call (one driver
write of the message and its log line) followed by one suspension of
`pdMS_TO_TICKS(2000)` ticks, which is 2000 ms; and in every initial segment of
the trace the modelled start times of two consecutive writes lie exactly one
such suspension, hence at least 2000 ms, apart. -/
theorem tx_task_period (pf : Platform) (writes : Nat → Int) (n : Nat) :
    (tx_task_loop pf writes n 0).2 = false ∧
    tx_task pf writes n
      = Event.logLevelSet TX_TASK_TAG esp_log_level_t.ESP_LOG_INFO ::
        ((List.range n).map (fun i =>
          (sendData TX_TASK_TAG txMessage (writes i)).1
            ++ [Event.delay (pdMS_TO_TICKS pf 2000)])).flatten ∧
    (∀ i, ((sendData TX_TASK_TAG txMessage (writes i)).1.filter Event.isWrite).length = 1) ∧
    pdMS_TO_TICKS pf 2000 * 1000 = 2000 * pf.configTICK_RATE_HZ ∧
    (∀ tr, tr <+: tx_task pf writes n → ∀ i a b,
      (writeStarts 0 tr)[i]? = some a → (writeStarts 0 tr)[i + 1]? = some b →
        b = a + pdMS_TO_TICKS pf 2000 ∧ 2000 * pf.configTICK_RATE_HZ ≤ (b - a) * 1000) := by
  have hD : pdMS_TO_TICKS pf 2000 * 1000 = 2000 * pf.configTICK_RATE_HZ := by
    simp only [pdMS_TO_TICKS]; omega
  refine ⟨tx_task_loop_never_exits pf writes n 0, ?_, ?_, hD, ?_⟩
  · simp only [tx_task, tx_task_loop_trace, Nat.zero_add, tx_task_iteration]
  · intro i
    have : toInt32 (strlen txMessage) = 16 := by decide
    simp only [sendData, this]
    rfl
  · intro tr htr i a b ha hb
    obtain ⟨rest, hrest⟩ := htr
    have hfull : writeStarts 0 (tx_task pf writes n)
        = (List.range n).map (fun i => i * pdMS_TO_TICKS pf 2000) := by
      simp only [tx_task, writeStarts, Event.isWrite, Event.ticks, Bool.false_eq_true, if_false,
        writeStarts_tx_task_loop, Nat.zero_add, Nat.add_zero]
    have hpre : writeStarts 0 tr <+: writeStarts 0 (tx_task pf writes n) := by
      rw [← hrest, writeStarts_append]
      exact List.prefix_append _ _
    have ha2 := getElem?_of_isPrefix hpre ha
    have hb2 := getElem?_of_isPrefix hpre hb
    rw [hfull, List.getElem?_map] at ha2 hb2
    have hi1 : i + 1 < n := by
      by_contra hc
      rw [List.getElem?_eq_none (by simp; omega)] at hb2
      exact absurd hb2 (by simp)
    rw [List.getElem?_range (by omega)] at ha2
    rw [List.getElem?_range hi1] at hb2
    simp only [Option.map_some', Option.some.injEq] at ha2 hb2
    subst ha2 hb2
    constructor
    · ring
    · have : (i + 1) * pdMS_TO_TICKS pf 2000 - i * pdMS_TO_TICKS pf 2000
          = pdMS_TO_TICKS pf 2000 := by
        rw [Nat.add_mul, Nat.one_mul]; omega
      rw [this, hD]


/-- Witness of C9: the first two writes of three iterations at a 100 Hz tick
start 200 ticks, that is 2000 ms, apart. -/
theorem tx_task_period_witness :
    (200 : Nat) = 0 + pdMS_TO_TICKS defaultPlatform 2000 ∧
    2000 * defaultPlatform.configTICK_RATE_HZ ≤ (200 - 0) * 1000 :=
  (tx_task_period defaultPlatform (fun _ => 16) 3).2.2.2.2
    (tx_task defaultPlatform (fun _ => 16) 3) (List.prefix_refl _) 0 0 200
    (by decide) (by decide)

/-! ## The whole program: initialization precedes all transfers -/

/-- An event that is no task creation leaves the state alone or stops the
process. -/
theorem spawn_of_not_create (rxAll txAll : List Event) (env : Env) (e : Event) (s : Sys)
    (h : e.isTaskCreate = false) :
    Sys.spawn rxAll txAll env e s = s ∨ Sys.spawn rxAll txAll env e s = ⟨[], none, none⟩ := by
  cases e <;> simp_all [Sys.spawn, Event.isTaskCreate]

/-- An event that is neither a task creation nor the abort leaves the state
alone. -/
theorem spawn_plain (rxAll txAll : List Event) (env : Env) (e : Event) (s : Sys)
    (h : e.isTaskCreate = false) (ha : e ≠ Event.abort) :
    Sys.spawn rxAll txAll env e s = s := by
  cases e <;> simp_all [Sys.spawn, Event.isTaskCreate]

/-- Nothing happens once the main thread is done and no task is running. -/
theorem run_nil_main (rxAll txAll : List Event) (env : Env) (sched : List Thread) :
    Sys.run rxAll txAll env ⟨[], none, none⟩ sched = [] := by
  induction sched with
  | nil => rfl
  | cons t ts ih => cases t <;> simpa [Sys.run, Sys.step] using ih

/-- While no task has been created and the main thread has no task creation
left, the trace is an initial segment of what the main thread has left. -/
theorem run_no_tasks (rxAll txAll : List Event) (env : Env) (sched : List Thread)
    (m : List Event) (hm : ∀ e ∈ m, e.isTaskCreate = false) :
    Sys.run rxAll txAll env ⟨m, none, none⟩ sched <+: m := by
  induction sched generalizing m with
  | nil => exact List.nil_prefix
  | cons t ts ih =>
    cases t with
    | main =>
      cases m with
      | nil => simpa [Sys.run, Sys.step] using ih [] (by simp)
      | cons e rest =>
        simp only [Sys.run, Sys.step]
        rcases spawn_of_not_create rxAll txAll env e ⟨rest, none, none⟩
          (hm e (List.mem_cons_self _ _)) with h | h
        · rw [h, List.cons_prefix_cons]
          exact ⟨rfl, ih rest (fun x hx => hm x (List.mem_cons_of_mem _ hx))⟩
        · rw [h, run_nil_main, List.cons_prefix_cons]
          exact ⟨rfl, List.nil_prefix⟩
    | rx => simpa [Sys.run, Sys.step] using ih m hm
    | tx => simpa [Sys.run, Sys.step] using ih m hm

/-- While no task has been created, the events `quiet` the main thread performs
before its first task creation come first in the trace. -/
theorem run_quiet (rxAll txAll : List Event) (env : Env) (sched : List Thread)
    (quiet rest : List Event)
    (hq : ∀ e ∈ quiet, e.isTaskCreate = false ∧ e ≠ Event.abort) :
    Sys.run rxAll txAll env ⟨quiet ++ rest, none, none⟩ sched <+: quiet ∨
    ∃ later, Sys.run rxAll txAll env ⟨quiet ++ rest, none, none⟩ sched = quiet ++ later := by
  induction sched generalizing quiet with
  | nil => exact Or.inl List.nil_prefix
  | cons t ts ih =>
    cases quiet with
    | nil => exact Or.inr ⟨_, rfl⟩
    | cons e q =>
      have hq2 : ∀ x ∈ q, x.isTaskCreate = false ∧ x ≠ Event.abort :=
        fun x hx => hq x (List.mem_cons_of_mem _ hx)
      cases t with
      | main =>
        have hsp : Sys.spawn rxAll txAll env e ⟨q ++ rest, none, none⟩ = ⟨q ++ rest, none, none⟩ :=
          spawn_plain rxAll txAll env e _ (hq e (List.mem_cons_self _ _)).1
            (hq e (List.mem_cons_self _ _)).2
        simp only [List.cons_append, Sys.run, Sys.step, hsp]
        rcases ih q hq2 with h | ⟨later, h⟩
        · exact Or.inl (List.cons_prefix_cons.2 ⟨rfl, h⟩)
        · exact Or.inr ⟨later, by rw [h]⟩
      | rx => simpa [Sys.run, Sys.step] using ih (e :: q) hq
      | tx => simpa [Sys.run, Sys.step] using ih (e :: q) hq

/-- What an event of the main thread can do to the receive task. -/
theorem spawn_rxTodo (rxAll txAll : List Event) (env : Env) (e : Event) (s : Sys) :
    (Sys.spawn rxAll txAll env e s).rxTodo = s.rxTodo ∨
    (Sys.spawn rxAll txAll env e s).rxTodo = none ∨
    ((Sys.spawn rxAll txAll env e s).rxTodo = some rxAll ∧ e.creates TaskFn.rx_task = true) := by
  cases e with
  | taskCreate fn name stack prio =>
    cases fn <;> simp only [Sys.spawn] <;> split <;> simp [Event.creates]
  | abort => simp [Sys.spawn]
  | _ => simp [Sys.spawn]

/-- What an event of the main thread can do to the transmit task. -/
theorem spawn_txTodo (rxAll txAll : List Event) (env : Env) (e : Event) (s : Sys) :
    (Sys.spawn rxAll txAll env e s).txTodo = s.txTodo ∨
    (Sys.spawn rxAll txAll env e s).txTodo = none ∨
    ((Sys.spawn rxAll txAll env e s).txTodo = some txAll ∧ e.creates TaskFn.tx_task = true) := by
  cases e with
  | taskCreate fn name stack prio =>
    cases fn <;> simp only [Sys.spawn] <;> split <;> simp [Event.creates]
  | abort => simp [Sys.spawn]
  | _ => simp [Sys.spawn]

/-- What an event of the main thread can do to the rest of the main thread. -/
theorem spawn_mainTodo (rxAll txAll : List Event) (env : Env) (e : Event) (s : Sys) :
    (Sys.spawn rxAll txAll env e s).mainTodo = s.mainTodo ∨
    (Sys.spawn rxAll txAll env e s).mainTodo = [] := by
  cases e with
  | taskCreate fn name stack prio =>
    cases fn <;> simp only [Sys.spawn] <;> split <;> simp
  | abort => simp [Sys.spawn]
  | _ => simp [Sys.spawn]

/-- An iteration of `rx_task` performs no driver write. -/
theorem rx_task_iteration_no_write (pf : Platform) (data : List Nat) (res : ReadResult)
    (events : List Event) (data2 : List Nat)
    (h : rx_task_iteration pf data res = some (events, data2)) :
    ∀ e ∈ events, e.isWrite = false := by
  simp only [rx_task_iteration] at h
  split at h
  · split at h
    · exact absurd h (by simp)
    · simp only [Option.some.injEq, Prod.mk.injEq] at h
      rw [← h.1]
      intro e he
      simp only [List.mem_cons, List.mem_singleton, List.not_mem_nil, or_false] at he
      rcases he with rfl | rfl | rfl | rfl <;> rfl
  · simp only [Option.some.injEq, Prod.mk.injEq] at h
    rw [← h.1]
    intro e he
    simp only [List.mem_cons, List.mem_singleton, List.not_mem_nil, or_false] at he
    rcases he with rfl | rfl | rfl <;> rfl

/-- The loop of `rx_task` performs no driver write. -/
theorem rx_task_loop_no_write (pf : Platform) (reads : Nat → ReadResult) (n k : Nat)
    (data : List Nat) : ∀ e ∈ (rx_task_loop pf reads n k data).1, e.isWrite = false := by
  induction n generalizing k data with
  | zero => intro e he; simp [rx_task_loop] at he
  | succ n ih =>
    intro e he
    simp only [rx_task_loop] at he
    split at he
    · simp only [List.mem_cons, List.mem_singleton, List.not_mem_nil, or_false] at he
      rcases he with rfl | rfl <;> rfl
    · rename_i events data1 hit
      simp only [List.mem_append] at he
      rcases he with he | he
      · exact rx_task_iteration_no_write pf data (reads k) events data1 hit e he
      · exact ih (k + 1) data1 e he

/-- The task `rx_task` performs no driver write. -/
theorem rx_task_no_write (pf : Platform) (reads : Nat → ReadResult) (data : List Nat) (n : Nat) :
    ∀ e ∈ rx_task pf reads data n, e.isWrite = false := by
  intro e he
  simp only [rx_task, List.mem_cons] at he
  rcases he with rfl | he
  · rfl
  · exact rx_task_loop_no_write pf reads n 0 data e he

/-- The task `tx_task` performs no driver read. -/
theorem tx_task_no_read (pf : Platform) (writes : Nat → Int) (n : Nat) :
    ∀ e ∈ tx_task pf writes n, e.isRead = false := by
  intro e he
  simp only [tx_task, tx_task_loop_trace, List.mem_cons, List.mem_flatten, List.mem_map,
    List.mem_range] at he
  rcases he with rfl | ⟨l, ⟨i, -, rfl⟩, he⟩
  · rfl
  · rw [tx_task_iteration_eq] at he
    simp only [List.mem_cons, List.mem_singleton, List.not_mem_nil, or_false] at he
    rcases he with rfl | rfl | rfl <;> rfl

/-- In every run, a driver read is performed by the running receive task or
after its creation, and a driver write by the running transmit task or after
its creation. -/
theorem run_transfer_after_create (rxAll txAll : List Event) (env : Env)
    (hrxAll : ∀ e ∈ rxAll, e.isWrite = false) (htxAll : ∀ e ∈ txAll, e.isRead = false)
    (sched : List Thread) (s : Sys)
    (hmain : ∀ e ∈ s.mainTodo, e.isRead = false ∧ e.isWrite = false)
    (hr : ∀ l, s.rxTodo = some l → ∀ e ∈ l, e.isWrite = false)
    (ht : ∀ l, s.txTodo = some l → ∀ e ∈ l, e.isRead = false)
    (pre : List Event) (e : Event) (post : List Event)
    (h : Sys.run rxAll txAll env s sched = pre ++ e :: post) :
    (e.isRead = true → s.rxTodo.isSome = true ∨ ∃ c ∈ pre, c.creates TaskFn.rx_task = true) ∧
    (e.isWrite = true → s.txTodo.isSome = true ∨ ∃ c ∈ pre, c.creates TaskFn.tx_task = true) := by
  induction sched generalizing s pre with
  | nil => simp [Sys.run] at h
  | cons t ts ih =>
    obtain ⟨m, r, x⟩ := s
    cases t with
    | main =>
      cases m with
      | nil =>
        simp only [Sys.run, Sys.step] at h
        exact ih ⟨[], r, x⟩ hmain hr ht pre h
      | cons e0 rest =>
        simp only [Sys.run, Sys.step] at h
        have he0 := hmain e0 (List.mem_cons_self _ _)
        cases pre with
        | nil =>
          simp only [List.nil_append, List.cons.injEq] at h
          rw [← h.1]
          simp [he0.1, he0.2]
        | cons p pre1 =>
          simp only [List.cons_append, List.cons.injEq] at h
          obtain ⟨hp, h⟩ := h
          subst hp
          have hmain1 : ∀ y ∈ (Sys.spawn rxAll txAll env e0 ⟨rest, r, x⟩).mainTodo,
              y.isRead = false ∧ y.isWrite = false := by
            rcases spawn_mainTodo rxAll txAll env e0 ⟨rest, r, x⟩ with h1 | h1
            · rw [h1]; exact fun y hy => hmain y (List.mem_cons_of_mem _ hy)
            · rw [h1]; simp
          have hr1 : ∀ l, (Sys.spawn rxAll txAll env e0 ⟨rest, r, x⟩).rxTodo = some l →
              ∀ y ∈ l, y.isWrite = false := by
            rcases spawn_rxTodo rxAll txAll env e0 ⟨rest, r, x⟩ with h1 | h1 | h1
            · rw [h1]; exact hr
            · rw [h1]; simp
            · rw [h1.1]; intro l hl; simp only [Option.some.injEq] at hl; rw [← hl]; exact hrxAll
          have ht1 : ∀ l, (Sys.spawn rxAll txAll env e0 ⟨rest, r, x⟩).txTodo = some l →
              ∀ y ∈ l, y.isRead = false := by
            rcases spawn_txTodo rxAll txAll env e0 ⟨rest, r, x⟩ with h1 | h1 | h1
            · rw [h1]; exact ht
            · rw [h1]; simp
            · rw [h1.1]; intro l hl; simp only [Option.some.injEq] at hl; rw [← hl]; exact htxAll
          obtain ⟨ihr, ihw⟩ := ih _ hmain1 hr1 ht1 pre1 h
          constructor
          · intro hread
            rcases ihr hread with h2 | ⟨c, hc, hcc⟩
            · rcases spawn_rxTodo rxAll txAll env e0 ⟨rest, r, x⟩ with h1 | h1 | h1
              · rw [h1] at h2; exact Or.inl h2
              · rw [h1] at h2; simp at h2
              · exact Or.inr ⟨e0, List.mem_cons_self _ _, h1.2⟩
            · exact Or.inr ⟨c, List.mem_cons_of_mem _ hc, hcc⟩
          · intro hwrite
            rcases ihw hwrite with h2 | ⟨c, hc, hcc⟩
            · rcases spawn_txTodo rxAll txAll env e0 ⟨rest, r, x⟩ with h1 | h1 | h1
              · rw [h1] at h2; exact Or.inl h2
              · rw [h1] at h2; simp at h2
              · exact Or.inr ⟨e0, List.mem_cons_self _ _, h1.2⟩
            · exact Or.inr ⟨c, List.mem_cons_of_mem _ hc, hcc⟩
    | rx =>
      cases r with
      | none =>
        simp only [Sys.run, Sys.step] at h
        exact ih ⟨m, none, x⟩ hmain hr ht pre h
      | some l =>
        cases l with
        | nil =>
          simp only [Sys.run, Sys.step] at h
          exact ih ⟨m, some [], x⟩ hmain hr ht pre h
        | cons e0 rest =>
          simp only [Sys.run, Sys.step] at h
          have he0 : e0.isWrite = false := hr _ rfl e0 (List.mem_cons_self _ _)
          cases pre with
          | nil =>
            simp only [List.nil_append, List.cons.injEq] at h
            rw [← h.1]
            simp [he0]
          | cons p pre1 =>
            simp only [List.cons_append, List.cons.injEq] at h
            obtain ⟨hp, h⟩ := h
            subst hp
            have hr1 : ∀ l, (Sys.mk m (some rest) x).rxTodo = some l →
                ∀ y ∈ l, y.isWrite = false := by
              intro l hl
              simp only [Option.some.injEq] at hl
              rw [← hl]
              exact fun y hy => hr _ rfl y (List.mem_cons_of_mem _ hy)
            obtain ⟨ihr, ihw⟩ := ih ⟨m, some rest, x⟩ hmain hr1 ht pre1 h
            constructor
            · intro _; exact Or.inl rfl
            · intro hwrite
              rcases ihw hwrite with h2 | ⟨c, hc, hcc⟩
              · exact Or.inl h2
              · exact Or.inr ⟨c, List.mem_cons_of_mem _ hc, hcc⟩
    | tx =>
      cases x with
      | none =>
        simp only [Sys.run, Sys.step] at h
        exact ih ⟨m, r, none⟩ hmain hr ht pre h
      | some l =>
        cases l with
        | nil =>
          simp only [Sys.run, Sys.step] at h
          exact ih ⟨m, r, some []⟩ hmain hr ht pre h
        | cons e0 rest =>
          simp only [Sys.run, Sys.step] at h
          have he0 : e0.isRead = false := ht _ rfl e0 (List.mem_cons_self _ _)
          cases pre with
          | nil =>
            simp only [List.nil_append, List.cons.injEq] at h
            rw [← h.1]
            simp [he0]
          | cons p pre1 =>
            simp only [List.cons_append, List.cons.injEq] at h
            obtain ⟨hp, h⟩ := h
            subst hp
            have ht1 : ∀ l, (Sys.mk m r (some rest)).txTodo = some l →
                ∀ y ∈ l, y.isRead = false := by
              intro l hl
              simp only [Option.some.injEq] at hl
              rw [← hl]
              exact fun y hy => ht _ rfl y (List.mem_cons_of_mem _ hy)
            obtain ⟨ihr, ihw⟩ := ih ⟨m, r, some rest⟩ hmain hr ht1 pre1 h
            constructor
            · intro hread
              rcases ihr hread with h2 | ⟨c, hc, hcc⟩
              · exact Or.inl h2
              · exact Or.inr ⟨c, List.mem_cons_of_mem _ hc, hcc⟩
            · intro _; exact Or.inl rfl

/-- The events of `uart_init` are no task creation, read or write, and hold no
abort when it returns. -/
theorem uart_init_trace_plain (rInstall rConfig rPin : Int) :
    ∀ e ∈ (uart_init rInstall rConfig rPin).trace,
      e.isTaskCreate = false ∧ e.isRead = false ∧ e.isWrite = false ∧
      ((uart_init rInstall rConfig rPin).result = some () → e ≠ Event.abort) := by
  by_cases h1 : rInstall = ESP_OK <;> by_cases h2 : rConfig = ESP_OK <;>
    by_cases h3 : rPin = ESP_OK <;>
    simp [uart_init, bind, Run.andThen, ESP_ERROR_CHECK, call, Run.ret, h1, h2, h3,
      Event.isTaskCreate, Event.isRead, Event.isWrite]

/-- When `uart_init` aborts, `app_main` performs nothing more. -/
theorem app_main_trace_aborted (pf : Platform) (rInstall rConfig rPin : Int)
    (h : (uart_init rInstall rConfig rPin).result = none) :
    (app_main pf rInstall rConfig rPin).trace = (uart_init rInstall rConfig rPin).trace := by
  simp only [app_main, bind, Run.andThen, h]

/-- When `uart_init` returns, `app_main` goes on with the startup delay and the
two task creations. -/
theorem app_main_trace_started (pf : Platform) (rInstall rConfig rPin : Int)
    (h : (uart_init rInstall rConfig rPin).result = some ()) :
    (app_main pf rInstall rConfig rPin).trace
      = ((uart_init rInstall rConfig rPin).trace ++ [Event.delay (pdMS_TO_TICKS pf 500)])
        ++ [Event.taskCreate TaskFn.rx_task "uart_rx_task" TASK_STACK_SIZE
              (pf.configMAX_PRIORITIES - 1),
            Event.taskCreate TaskFn.tx_task "uart_tx_task" TASK_STACK_SIZE
              (pf.configMAX_PRIORITIES - 2)] := by
  simp [app_main, bind, Run.andThen, h, call]

/-- The main thread `app_main` performs no driver read or write itself. -/
theorem app_main_trace_no_transfer (pf : Platform) (rInstall rConfig rPin : Int) :
    ∀ e ∈ (app_main pf rInstall rConfig rPin).trace, e.isRead = false ∧ e.isWrite = false := by
  intro e he
  cases hres : (uart_init rInstall rConfig rPin).result with
  | none =>
    rw [app_main_trace_aborted pf _ _ _ hres] at he
    have := uart_init_trace_plain rInstall rConfig rPin e he
    exact ⟨this.2.1, this.2.2.1⟩
  | some u =>
    rw [app_main_trace_started pf _ _ _ hres] at he
    simp only [List.mem_append, List.mem_cons, List.mem_singleton, List.not_mem_nil,
      or_false] at he
    rcases he with (he | rfl) | rfl | rfl
    · have := uart_init_trace_plain rInstall rConfig rPin e he
      exact ⟨this.2.1, this.2.2.1⟩
    · exact ⟨rfl, rfl⟩
    · exact ⟨rfl, rfl⟩
    · exact ⟨rfl, rfl⟩

/-- C8: in every run of the program, under every schedule and whatever the SDK
answers, `app_main` performs `uart_init`, then the startup delay
`vTaskDelay(pdMS_TO_TICKS(500))`, then the creation of `rx_task` and of
`tx_task`; every driver read, driver write and task creation in the trace comes
after the complete trace of a successful `uart_init` and the startup delay; a
read comes after the creation of `rx_task` and a write after the creation of
`tx_task`; and when `uart_init` aborts, the trace holds no task creation, no
read and no write. -/
theorem app_main_init_precedes_transfers (pf : Platform) (env : Env) (sched : List Thread) :
    ((uart_init env.rInstall env.rConfig env.rPin).result = some () →
      (app_main pf env.rInstall env.rConfig env.rPin).trace
        = (uart_init env.rInstall env.rConfig env.rPin).trace
          ++ [Event.delay (pdMS_TO_TICKS pf 500),
              Event.taskCreate TaskFn.rx_task "uart_rx_task" TASK_STACK_SIZE
                (pf.configMAX_PRIORITIES - 1),
              Event.taskCreate TaskFn.tx_task "uart_tx_task" TASK_STACK_SIZE
                (pf.configMAX_PRIORITIES - 2)]) ∧
    (∀ pre e post, systemTrace pf env sched = pre ++ e :: post →
      (e.isRead = true ∨ e.isWrite = true ∨ e.isTaskCreate = true) →
        (uart_init env.rInstall env.rConfig env.rPin).result = some () ∧
        (uart_init env.rInstall env.rConfig env.rPin).trace
          ++ [Event.delay (pdMS_TO_TICKS pf 500)] <+: pre) ∧
    (∀ pre e post, systemTrace pf env sched = pre ++ e :: post →
      (e.isRead = true → ∃ c ∈ pre, c.creates TaskFn.rx_task = true) ∧
      (e.isWrite = true → ∃ c ∈ pre, c.creates TaskFn.tx_task = true)) ∧
    ((uart_init env.rInstall env.rConfig env.rPin).result = none →
      ∀ e ∈ systemTrace pf env sched,
        e.isRead = false ∧ e.isWrite = false ∧ e.isTaskCreate = false) := by
  have habort : (uart_init env.rInstall env.rConfig env.rPin).result = none →
      ∀ e ∈ systemTrace pf env sched,
        e.isRead = false ∧ e.isWrite = false ∧ e.isTaskCreate = false := by
    intro hres e he
    have hpre : systemTrace pf env sched <+: (uart_init env.rInstall env.rConfig env.rPin).trace := by
      simp only [systemTrace, app_main_trace_aborted pf _ _ _ hres]
      exact run_no_tasks _ _ env sched _
        (fun x hx => (uart_init_trace_plain env.rInstall env.rConfig env.rPin x hx).1)
    have := uart_init_trace_plain env.rInstall env.rConfig env.rPin e (hpre.subset he)
    exact ⟨this.2.1, this.2.2.1, this.1⟩
  refine ⟨?_, ?_, ?_, habort⟩
  · intro hres
    rw [app_main_trace_started pf _ _ _ hres]
    simp
  · intro pre e post htr hsp
    have hmem : e ∈ systemTrace pf env sched := by rw [htr]; simp
    cases hres : (uart_init env.rInstall env.rConfig env.rPin).result with
    | none =>
      have := habort hres e hmem
      rcases hsp with h | h | h <;> simp_all
    | some u =>
      refine ⟨rfl, ?_⟩
      have hq : ∀ x ∈ (uart_init env.rInstall env.rConfig env.rPin).trace
          ++ [Event.delay (pdMS_TO_TICKS pf 500)],
          x.isTaskCreate = false ∧ x.isRead = false ∧ x.isWrite = false ∧ x ≠ Event.abort := by
        intro x hx
        simp only [List.mem_append, List.mem_singleton] at hx
        rcases hx with hx | rfl
        · have := uart_init_trace_plain env.rInstall env.rConfig env.rPin x hx
          exact ⟨this.1, this.2.1, this.2.2.1, this.2.2.2 hres⟩
        · exact ⟨rfl, rfl, rfl, by simp⟩
      have hnot : e ∉ (uart_init env.rInstall env.rConfig env.rPin).trace
          ++ [Event.delay (pdMS_TO_TICKS pf 500)] := by
        intro he
        have := hq e he
        rcases hsp with h | h | h <;> simp_all
      have hrun := run_quiet (rx_task pf env.reads env.heap sched.length)
        (tx_task pf env.writes sched.length) env sched _
        [Event.taskCreate TaskFn.rx_task "uart_rx_task" TASK_STACK_SIZE
            (pf.configMAX_PRIORITIES - 1),
          Event.taskCreate TaskFn.tx_task "uart_tx_task" TASK_STACK_SIZE
            (pf.configMAX_PRIORITIES - 2)]
        (fun x hx => ⟨(hq x hx).1, (hq x hx).2.2.2⟩)
      rw [← app_main_trace_started pf _ _ _ hres] at hrun
      change systemTrace pf env sched <+: _ ∨ ∃ later, systemTrace pf env sched = _ ++ later
        at hrun
      rcases hrun with hpre | ⟨later, hlater⟩
      · exact absurd (hpre.subset hmem) hnot
      · rw [htr, List.append_eq_append_iff] at hlater
        rcases hlater with ⟨a, ha, ha2⟩ | ⟨c, hc, -⟩
        · cases a with
          | nil => rw [List.append_nil] at ha; rw [ha]
          | cons y ys =>
            simp only [List.cons_append, List.cons.injEq] at ha2
            exact absurd (by rw [ha, ha2.1]; simp) hnot
        · exact ⟨c, hc.symm⟩
  · intro pre e post htr
    have h := run_transfer_after_create (rx_task pf env.reads env.heap sched.length)
      (tx_task pf env.writes sched.length) env
      (rx_task_no_write pf env.reads env.heap sched.length)
      (tx_task_no_read pf env.writes sched.length) sched
      ⟨(app_main pf env.rInstall env.rConfig env.rPin).trace, none, none⟩
      (app_main_trace_no_transfer pf env.rInstall env.rConfig env.rPin)
      (by simp) (by simp) pre e post htr
    constructor
    · intro hr
      rcases h.1 hr with h1 | h1
      · simp at h1
      · exact h1
    · intro hw
      rcases h.2 hw with h1 | h1
      · simp at h1
      · exact h1

set_option maxRecDepth 20000 in
/-- Witness of C8: all SDK calls succeed, the main thread runs to its first
task creation and the receive task then reaches its first read. -/
theorem app_main_init_precedes_transfers_witness :
    (uart_init loopbackEnv.rInstall loopbackEnv.rConfig loopbackEnv.rPin).result = some () ∧
    (uart_init loopbackEnv.rInstall loopbackEnv.rConfig loopbackEnv.rPin).trace
      ++ [Event.delay (pdMS_TO_TICKS defaultPlatform 500)]
      <+: (systemTrace defaultPlatform loopbackEnv firstReadSchedule).take 8 :=
  (app_main_init_precedes_transfers defaultPlatform loopbackEnv firstReadSchedule).2.1
    ((systemTrace defaultPlatform loopbackEnv firstReadSchedule).take 8)
    (Event.read UART_PORT_NUM RX_BUF_SIZE 100) [] (by decide) (Or.inl rfl)

end UartAsync
